import Mathlib

/-!
Shallow embedding of `plex_artwork_healer.py` (Plex Artwork Healer).

The Python program reconciles artwork (poster and background) of Plex media
items.  We embed the pure decision logic: the network and the filesystem are
made explicit.  A network interaction is represented by the value the one
call at that call site produces (`none` meaning the call raised), and the
backup store on disk is an association list from file path to stored bytes.
-/

set_option autoImplicit false

namespace ArtHealer

/-- Bytes of an image file (`r.content` in the Python source). -/
abbrev Bytes := List Nat

/-- The backup store on disk: file path to stored bytes. -/
abbrev FS := List (String × Bytes)

/-- Lookup a path in the filesystem. -/
def fsGet : FS → String → Option Bytes
  | [], _ => none
  | (q, c) :: t, p => if q = p then some c else fsGet t p

/-- Write bytes at a path, overwriting any prior content (`open(path, "wb")`). -/
def fsSet : FS → String → Bytes → FS
  | [], p, b => [(p, b)]
  | (q, c) :: t, p, b => if q = p then (p, b) :: t else (q, c) :: fsSet t p b

/-- The two artwork slots (`art_type` strings `poster` / `background`). -/
inductive Slot where
  | poster
  | background
deriving DecidableEq, Repr

/-- The `art_type` string of a slot. -/
def Slot.str : Slot → String
  | .poster => "poster"
  | .background => "background"

/-- `PLEX_URL` configuration constant of the source. -/
def PLEX_URL : String := "http://<PLEX_IP>:32400"

/-- `PLEX_TOKEN` configuration constant of the source. -/
def PLEX_TOKEN : String := "PLEX_TOKEN"

/-- `BASE_DIR` configuration constant of the source. -/
def BASE_DIR : String := "Posters"

/-- The fully qualified Plex artwork URL built in `fix_art` and
`backup_from_plex`. -/
def fullPlexUrl (rel : String) : String :=
  PLEX_URL ++ rel ++ "?X-Plex-Token=" ++ PLEX_TOKEN

/-- Characters removed by `safe_filename` (the regex class of illegal
filename characters). -/
def illegalChars : List Char := ['\\', '/', '*', '?', ':', '\"', '<', '>', '|']

/-- `safe_filename`: removes every illegal character from the string
(`re.sub` with an empty replacement). -/
def safe_filename (name : String) : String :=
  String.mk (name.data.filter (fun c => !illegalChars.contains c))

/-- `get_artwork_path`: deterministic backup file path
`BASE_DIR/library/safe_filename(title)/slot.jpg`. -/
def get_artwork_path (library title : String) (slot : Slot) : String :=
  BASE_DIR ++ "/" ++ library ++ "/" ++ safe_filename title ++ "/" ++ slot.str ++ ".jpg"

/-- Python truthiness of an optional string: `None` and the empty string are
falsy. -/
def strOptFalsy : Option String → Bool
  | none => true
  | some s => s = ""

/-- `artwork_url_invalid`: the probe result is `none` when `requests.get`
raised (transport error or the 5 second timeout elapsed), `some code`
otherwise; the artwork is invalid unless the status is 200. -/
def artwork_url_invalid (probeRes : Option Nat) : Bool :=
  match probeRes with
  | none => true
  | some code => code ≠ 200

/-- The fixed probe timeout of `artwork_url_invalid` (seconds). -/
def PROBE_TIMEOUT : Nat := 5

/-! ### Decimal digit strings (Python `str`, `int`, `str.isdigit`) -/

/-- Numeric value accumulated over decimal digit characters (`int(s)`). -/
def digitsVal (l : List Char) : Nat :=
  l.foldl (fun a c => a * 10 + (c.toNat - 48)) 0

/-- The decimal digit characters of a natural number (`str(n)`). -/
def natDigits (n : Nat) : List Char :=
  if h : n < 10 then [Nat.digitChar n]
  else natDigits (n / 10) ++ [Nat.digitChar (n % 10)]
termination_by n
decreasing_by
  exact Nat.div_lt_self (by omega) (by omega)

/-- Python `str(n)` for a natural number. -/
def natToStr (n : Nat) : String := String.mk (natDigits n)

/-- Python `s.isdigit()`: nonempty and all characters decimal digits. -/
def strIsDigit (s : String) : Bool :=
  !s.data.isEmpty && s.data.all Char.isDigit

/-! ### TMDb ID extraction from a Plex GUID -/

/-- The literal pattern prefix of the regex `themoviedb://(\d+)`. -/
def tmdbPat : List Char := "themoviedb://".data

/-- Scan of `re.search`: at each position try to match the pattern followed
by at least one digit; the captured group is the maximal digit run. -/
def extractScan : List Char → Option Nat
  | [] => none
  | c :: rest =>
    if tmdbPat.isPrefixOf (c :: rest) then
      match ((c :: rest).drop tmdbPat.length).takeWhile Char.isDigit with
      | [] => extractScan rest
      | ds => some (digitsVal ds)
    else extractScan rest

/-- `extract_tmdb_id_from_guid`: first match of `themoviedb://(\d+)` in the
GUID (`guid or ""`), as an integer, else `None`. -/
def extract_tmdb_id_from_guid (guid : Option String) : Option Nat :=
  extractScan (guid.getD "").data

/-! ### TMDb ID cache (`build_tmdb_cache` / `load_tmdb_cache`) -/

/-- The in-memory cache: a Python dict from title to TMDb ID, as an
association list in insertion order. -/
abbrev Cache := List (String × Nat)

/-- Python dict lookup `cache.get(title)`. -/
def cacheGet : Cache → String → Option Nat
  | [], _ => none
  | (k, v) :: t, q => if k = q then some v else cacheGet t q

/-- Python dict assignment `cache[k] = v`: replaces the value in place if the
key exists, else appends. -/
def dictInsert : Cache → String → Nat → Cache
  | [], k, v => [(k, v)]
  | (k2, v2) :: t, k, v =>
    if k2 = k then (k, v) :: t else (k2, v2) :: dictInsert t k v

/-- An item seen during the cache build pass: its title and its `guid`
attribute (defaulted to the empty string by `getattr`). -/
structure CacheItem where
  title : String
  guid : Option String
deriving DecidableEq, Repr

/-- The cache-build loop body: insert the item if its GUID carries a truthy
TMDb ID (`if tmdb_id:` rejects both `None` and `0`). -/
def cacheAddItems (c : Cache) (items : List CacheItem) : Cache :=
  items.foldl (fun acc it =>
    match extract_tmdb_id_from_guid it.guid with
    | some id => if id ≠ 0 then dictInsert acc it.title id else acc
    | none => acc) c

/-- The library loop of `build_tmdb_cache`: fold every successfully
enumerated library (`none` models a raised, caught and logged enumeration). -/
def buildLibsFold (libs : List (Option (List CacheItem))) (c : Cache) : Cache :=
  libs.foldl (fun acc lo =>
    match lo with
    | none => acc
    | some items => cacheAddItems acc items) c

/-- The in-memory mapping produced by `build_tmdb_cache`: all libraries,
then the `Movies` collections (`none` models a raised enumeration). -/
def buildCacheMap (libs : List (Option (List CacheItem)))
    (colls : Option (List CacheItem)) : Cache :=
  match colls with
  | none => buildLibsFold libs []
  | some items => cacheAddItems (buildLibsFold libs []) items

/-- `build_tmdb_cache`: build the mapping, then serialize it to CSV rows
(`writer.writerow([title, tmdb_id])` per entry).  Returns the in-memory
cache and the persisted rows. -/
def build_tmdb_cache (libs : List (Option (List CacheItem)))
    (colls : Option (List CacheItem)) : Cache × List (String × String) :=
  (buildCacheMap libs colls, (buildCacheMap libs colls).map (fun p => (p.1, natToStr p.2)))

/-- `load_tmdb_cache`: `none` models an absent cache file; otherwise fold the
CSV rows, keeping those with a truthy title and an all-digit ID field. -/
def load_tmdb_cache (durable : Option (List (String × String))) : Cache :=
  match durable with
  | none => []
  | some rows =>
    rows.foldl (fun acc row =>
      if row.1 ≠ "" ∧ strIsDigit row.2 then dictInsert acc row.1 (digitsVal row.2.data)
      else acc) []

/-! ### Reconciliation engine (`fix_art`) -/

/-- The configuration flags read by `fix_art` (module-level constants of the
source). -/
structure Config where
  ENABLE_UPLOAD : Bool
  FORCE_UPLOAD_ALL : Bool
  DRY_RUN : Bool
deriving DecidableEq, Repr

/-- A Plex media item as read by the core: title plus the two relative
artwork references (`item.thumb`, `item.art`). -/
structure PlexItem where
  title : String
  thumb : Option String
  art : Option String
deriving DecidableEq, Repr

/-- TMDb metadata as used by `download_tmdb_art` (`getattr` with default
`None`; the empty string is falsy too). -/
structure TmdbData where
  title : String
  poster_path_field : Option String
  backdrop_path_field : Option String
deriving DecidableEq, Repr

/-- The image path field of the metadata for a slot. -/
def TmdbData.pathFor (d : TmdbData) : Slot → Option String
  | .poster => d.poster_path_field
  | .background => d.backdrop_path_field

/-- The response of each external call site during one `fix_art` call.
`none` models the call raising (transport error); a pair is a status code
with the response body. -/
structure Env where
  probe : Option Nat
  mkdirOk : Bool
  plexFetch : Option (Nat × Bytes)
  details : Option TmdbData
  searchRes : Option (List TmdbData)
  imageRes : Option (Nat × Bytes)
  uploadOk : Bool
deriving DecidableEq, Repr

/-- Observable external calls made during a run. -/
inductive Event where
  | probeCall (url : String) (timeout : Nat)
  | backupFetch (url : String)
  | detailsCall (id : Nat)
  | searchCall (title : String)
  | imageFetch (url : String)
  | uploadAttempt (slot : Slot) (content : Option Bytes)
  | uploadFailLog
  | buildPass
  | itemVisit (title : String)
  | libStart (name : String)
  | libError
deriving DecidableEq, Repr

/-- The per-slot reconciliation outcome named by the specification.
`Errored` is the outcome the specification predicts for an uncaught
exception; the code never produces it. -/
inductive Outcome where
  | Healthy
  | RestoredFromBackup
  | RedownloadedFromProvider
  | MissingNotFound
  | Errored
deriving DecidableEq, Repr

/-- Exceptions that escape `fix_art` uncaught (`os.makedirs` in
`ensure_folder` is not wrapped in any handler inside `fix_art`). -/
inductive Exn where
  | mkdirFailed
deriving DecidableEq, Repr

/-- The relative artwork reference of an item for a slot
(`item.thumb if art_type == "poster" else item.art`). -/
def relUrlOf (item : PlexItem) : Slot → Option String
  | .poster => item.thumb
  | .background => item.art

/-- The `broken` flag of `fix_art`: force mode, absent reference, or failed
liveness probe. -/
def brokenOf (cfg : Config) (env : Env) (item : PlexItem) (slot : Slot) : Bool :=
  cfg.FORCE_UPLOAD_ALL || strOptFalsy (relUrlOf item slot) || artwork_url_invalid env.probe

/-- The events of evaluating `broken` (the probe runs only when the earlier
disjuncts short-circuit to false). -/
def brokenEvents (cfg : Config) (env : Env) (item : PlexItem) (slot : Slot) : List Event :=
  if cfg.FORCE_UPLOAD_ALL then []
  else if strOptFalsy (relUrlOf item slot) then []
  else [Event.probeCall (fullPlexUrl ((relUrlOf item slot).getD "")) PROBE_TIMEOUT]

/-- `backup_from_plex`: download the current artwork from Plex into the
backup path; any raise is caught and logged, returning `False`. -/
def backup_from_plex (env : Env) (fs : FS) (item : PlexItem) (slot : Slot)
    (path : String) : Bool × FS × List Event :=
  let rel := relUrlOf item slot
  if strOptFalsy rel then (false, fs, [])
  else
    let url := fullPlexUrl (rel.getD "")
    match env.plexFetch with
    | none => (false, fs, [Event.backupFetch url])
    | some (st, content) =>
      if st = 200 then (true, fsSet fs path content, [Event.backupFetch url])
      else (false, fs, [Event.backupFetch url])

/-- Step 1 of `fix_art`: opportunistic backup when no record exists yet (the
boolean result of `backup_from_plex` is discarded by the caller). -/
def step1_backup (env : Env) (fs : FS) (item : PlexItem) (slot : Slot)
    (path : String) : FS × List Event :=
  if (fsGet fs path).isNone then (backup_from_plex env fs item slot path).2
  else (fs, [])

/-- `download_tmdb_art`: fetch the slot image named by the metadata from the
TMDb image origin and store it at the backup path; failures return `False`
without writing. -/
def download_tmdb_art (env : Env) (d : TmdbData) (slot : Slot) (path : String)
    (fs : FS) : Bool × FS × List Event :=
  let field := d.pathFor slot
  if strOptFalsy field then (false, fs, [])
  else
    let url := "https://image.tmdb.org/t/p/original" ++ field.getD ""
    match env.imageRes with
    | none => (false, fs, [Event.imageFetch url])
    | some (st, content) =>
      if st = 200 then (true, fsSet fs path content, [Event.imageFetch url])
      else (false, fs, [Event.imageFetch url])

/-- `upload_to_plex`: calls the Plex upload with the file at `path`; a
missing file or a raising upload is caught and logged inside the function,
which always returns normally. -/
def upload_to_plex (env : Env) (fs : FS) (slot : Slot) (path : String) : List Event :=
  match fsGet fs path with
  | none => [Event.uploadAttempt slot none, Event.uploadFailLog]
  | some b =>
    if env.uploadOk then [Event.uploadAttempt slot (some b)]
    else [Event.uploadAttempt slot (some b), Event.uploadFailLog]

/-- Step 4 of `fix_art`: TMDb lookup from cache or search.  `if tmdb_id:`
sends both an absent and a zero cached ID to the search branch; either
branch turns a raise into `None`. -/
def resolveTmdb (env : Env) (cache : Cache) (title : String) :
    Option TmdbData × List Event :=
  match cacheGet cache title with
  | some (n + 1) => (env.details, [Event.detailsCall (n + 1)])
  | some 0 => (env.searchRes.bind List.head?, [Event.searchCall title])
  | none => (env.searchRes.bind List.head?, [Event.searchCall title])

/-- `fix_art`: the per (item, slot) reconciliation.  The only uncaught raise
inside the body is `ensure_folder`; everything after it follows the five
steps of the source in order. -/
def fix_art (cfg : Config) (env : Env) (fs : FS) (item : PlexItem)
    (library : String) (slot : Slot) (cache : Cache) :
    Except Exn (Outcome × FS × List Event) :=
  let title := item.title
  let broken := brokenOf cfg env item slot
  let ev0 := brokenEvents cfg env item slot
  let backup_path := get_artwork_path library title slot
  if env.mkdirOk = false then .error .mkdirFailed
  else
    let s1 := step1_backup env fs item slot backup_path
    let fs1 := s1.1
    let ev1 := s1.2
    if broken = false then .ok (.Healthy, fs1, ev0 ++ ev1)
    else if (fsGet fs1 backup_path).isSome && !cfg.FORCE_UPLOAD_ALL then
      let ev2 := if cfg.ENABLE_UPLOAD && !cfg.DRY_RUN then
        upload_to_plex env fs1 slot backup_path else []
      .ok (.RestoredFromBackup, fs1, ev0 ++ ev1 ++ ev2)
    else
      let r4 := resolveTmdb env cache title
      match r4.1 with
      | some d =>
        let dl := download_tmdb_art env d slot backup_path fs1
        if dl.1 then
          let ev5 := if cfg.ENABLE_UPLOAD && !cfg.DRY_RUN then
            upload_to_plex env dl.2.1 slot backup_path else []
          .ok (.RedownloadedFromProvider, dl.2.1, ev0 ++ ev1 ++ r4.2 ++ dl.2.2 ++ ev5)
        else
          .ok (.MissingNotFound, dl.2.1, ev0 ++ ev1 ++ r4.2 ++ dl.2.2)
      | none => .ok (.MissingNotFound, fs1, ev0 ++ ev1 ++ r4.2)

/-! ### Orchestrator (`process_section`, `main`) -/

/-- One item of a section together with the environment of its two
`fix_art` calls. -/
structure ItemCtx where
  item : PlexItem
  envP : Env
  envB : Env
deriving DecidableEq, Repr

/-- `process_section`: fix poster then background of each item in order.
There is no handler inside the loop, so the first escaping exception stops
the section; we return the filesystem, the events so far, and the escaped
exception if any. -/
def process_section (cfg : Config) (fs : FS) (ctxs : List ItemCtx)
    (library : String) (cache : Cache) : FS × List Event × Option Exn :=
  match ctxs with
  | [] => (fs, [], none)
  | c :: rest =>
    match fix_art cfg c.envP fs c.item library .poster cache with
    | .error e => (fs, [Event.itemVisit c.item.title], some e)
    | .ok (_, fs1, ev1) =>
      match fix_art cfg c.envB fs1 c.item library .background cache with
      | .error e => (fs1, Event.itemVisit c.item.title :: ev1, some e)
      | .ok (_, fs2, ev2) =>
        let r := process_section cfg fs2 rest library cache
        (r.1, (Event.itemVisit c.item.title :: ev1 ++ ev2) ++ r.2.1, r.2.2)

/-- One configured library: its name and its enumeration (`none` when
`plex.library.section(lib)` or the enumeration raises). -/
structure LibSpec where
  name : String
  sectionItems : Option (List ItemCtx)
deriving DecidableEq, Repr

/-- The per-library loop of `main`: enumeration failures and exceptions
escaping `process_section` are caught at this boundary and logged, and the
loop continues with the next library. -/
def processLibraries (cfg : Config) (fs : FS) (libs : List LibSpec)
    (cache : Cache) : FS × List Event :=
  match libs with
  | [] => (fs, [])
  | l :: rest =>
    let step : FS × List Event :=
      match l.sectionItems with
      | none => (fs, [Event.libStart l.name, Event.libError])
      | some ctxs =>
        match process_section cfg fs ctxs l.name cache with
        | (fs2, ev, some _) => (fs2, Event.libStart l.name :: ev ++ [Event.libError])
        | (fs2, ev, none) => (fs2, Event.libStart l.name :: ev)
    let r := processLibraries cfg step.1 rest cache
    (r.1, step.2 ++ r.2)

/-- Everything `main` reads from the outside world: the durable cache file
left by a prior run, the enumerations of the cache-build pass, and the
libraries to process. -/
structure RunInput where
  durable : Option (List (String × String))
  cacheLibs : List (Option (List CacheItem))
  cacheColls : Option (List CacheItem)
  libs : List LibSpec
deriving DecidableEq, Repr

/-- `main`: build the TMDb cache (unconditionally), then process every
library.  Returns the cache used, the durable rows written by the build,
the final filesystem and the event trace. -/
def main (cfg : Config) (inp : RunInput) (fs : FS) :
    Cache × List (String × String) × FS × List Event :=
  let b := build_tmdb_cache inp.cacheLibs inp.cacheColls
  let r := processLibraries cfg fs inp.libs b.1
  (b.1, b.2, r.1, Event.buildPass :: r.2)

/-! ### Derived observations on event traces -/

/-- The payloads of the upload calls in a trace (one entry per call of the
Plex upload API). -/
def uploadsOf (ev : List Event) : List (Option Bytes) :=
  ev.filterMap (fun e =>
    match e with
    | .uploadAttempt _ c => some c
    | _ => none)

/-- The External Resolver calls (TMDb details or search) in a trace. -/
def resolverCalls (ev : List Event) : List Event :=
  ev.filter (fun e =>
    match e with
    | .detailsCall _ => true
    | .searchCall _ => true
    | _ => false)

/-- The keys of a cache, in order. -/
def cacheKeys (c : Cache) : List String := c.map Prod.fst

/-- The outcome of a `fix_art` result, when no exception escaped. -/
def outcomeOf (r : Except Exn (Outcome × FS × List Event)) : Option Outcome :=
  match r with
  | .error _ => none
  | .ok (o, _, _) => some o

/-- The filesystem left by a `fix_art` result, when no exception escaped. -/
def fsOf (r : Except Exn (Outcome × FS × List Event)) : Option FS :=
  match r with
  | .error _ => none
  | .ok (_, f, _) => some f

/-- The events of a `fix_art` result (empty when an exception escaped). -/
def eventsOf (r : Except Exn (Outcome × FS × List Event)) : List Event :=
  match r with
  | .error _ => []
  | .ok (_, _, ev) => ev

/-! ### Lemmas on digit strings -/

theorem digitChar_toNat_sub (d : Nat) (h : d < 10) : (Nat.digitChar d).toNat - 48 = d := by
  interval_cases d <;> decide

theorem digitChar_isDigit (d : Nat) (h : d < 10) : (Nat.digitChar d).isDigit = true := by
  interval_cases d <;> decide

theorem natDigits_foldl (n : Nat) :
    ∀ acc : Nat, (natDigits n).foldl (fun a c => a * 10 + (c.toNat - 48)) acc
      = acc * 10 ^ (natDigits n).length + n := by
  induction n using Nat.strong_induction_on with
  | _ n ih =>
    intro acc
    by_cases h : n < 10
    · rw [natDigits, dif_pos h]
      simp [List.foldl, digitChar_toNat_sub n h]
    · rw [natDigits, dif_neg h]
      rw [List.foldl_append]
      have h10 : n / 10 < n := Nat.div_lt_self (by omega) (by omega)
      rw [ih _ h10]
      simp only [List.foldl_cons, List.foldl_nil, List.length_append, List.length_cons,
        List.length_nil]
      rw [digitChar_toNat_sub _ (Nat.mod_lt _ (by omega))]
      rw [pow_succ, ← mul_assoc]
      generalize acc * 10 ^ (natDigits (n / 10)).length = m
      omega

theorem digitsVal_natToStr (n : Nat) : digitsVal (natToStr n).data = n := by
  have := natDigits_foldl n 0
  simpa [digitsVal, natToStr] using this

theorem natDigits_ne_nil (n : Nat) : natDigits n ≠ [] := by
  rw [natDigits]
  split <;> simp

theorem natDigits_all_digit (n : Nat) : (natDigits n).all Char.isDigit = true := by
  induction n using Nat.strong_induction_on with
  | _ n ih =>
    by_cases h : n < 10
    · rw [natDigits, dif_pos h]
      simp [digitChar_isDigit n h]
    · rw [natDigits, dif_neg h]
      have h10 : n / 10 < n := Nat.div_lt_self (by omega) (by omega)
      simp [List.all_append, ih _ h10, digitChar_isDigit _ (Nat.mod_lt _ (by omega))]

theorem strIsDigit_natToStr (n : Nat) : strIsDigit (natToStr n) = true := by
  have h1 := natDigits_ne_nil n
  have h2 := natDigits_all_digit n
  simp [strIsDigit, natToStr, h2]
  cases h : natDigits n with
  | nil => exact absurd h h1
  | cons a l => simp

/-! ### Lemmas on the dict model -/

theorem mem_dictInsert {c : Cache} {k : String} {v : Nat} {p : String × Nat}
    (h : p ∈ dictInsert c k v) : p = (k, v) ∨ p ∈ c := by
  induction c with
  | nil => simpa [dictInsert] using h
  | cons q t iht =>
    rw [dictInsert] at h
    split at h
    · rcases List.mem_cons.mp h with h1 | h1
      · exact Or.inl h1
      · exact Or.inr (List.mem_cons_of_mem q h1)
    · rcases List.mem_cons.mp h with h1 | h1
      · exact Or.inr (h1 ▸ List.mem_cons_self q t)
      · rcases iht h1 with h2 | h2
        · exact Or.inl h2
        · exact Or.inr (List.mem_cons_of_mem q h2)

theorem mem_cacheKeys_dictInsert {c : Cache} {k a : String} {v : Nat}
    (h : a ∈ cacheKeys (dictInsert c k v)) : a = k ∨ a ∈ cacheKeys c := by
  rcases List.mem_map.mp h with ⟨p, hp, rfl⟩
  rcases mem_dictInsert hp with h1 | h1
  · exact Or.inl (by rw [h1])
  · exact Or.inr (List.mem_map_of_mem Prod.fst h1)

theorem cacheKeys_nodup_dictInsert {c : Cache} {k : String} {v : Nat}
    (h : (cacheKeys c).Nodup) : (cacheKeys (dictInsert c k v)).Nodup := by
  induction c with
  | nil => simp [dictInsert, cacheKeys]
  | cons q t iht =>
    rw [dictInsert]
    rcases List.nodup_cons.mp h with ⟨hq, ht⟩
    split
    · rename_i heq
      refine List.nodup_cons.mpr ⟨?_, ht⟩
      rw [← heq]
      exact hq
    · rename_i hne
      refine List.nodup_cons.mpr ⟨?_, iht ht⟩
      intro hmem
      rcases mem_cacheKeys_dictInsert hmem with h1 | h1
      · exact hne (by simpa using h1)
      · exact hq h1

theorem dictInsert_eq_append {c : Cache} {k : String} {v : Nat}
    (h : k ∉ cacheKeys c) : dictInsert c k v = c ++ [(k, v)] := by
  induction c with
  | nil => rfl
  | cons q t iht =>
    rw [dictInsert]
    have hq : q.1 ≠ k := by
      intro he
      exact h (he ▸ List.mem_map_of_mem Prod.fst (List.mem_cons_self q t))
    rw [if_neg hq]
    have ht : k ∉ cacheKeys t := by
      intro hmem
      exact h (List.mem_cons_of_mem _ hmem)
    rw [iht ht, List.cons_append]

theorem foldl_dictInsert_of_nodup :
    ∀ (l : Cache) (acc : Cache), (cacheKeys (acc ++ l)).Nodup →
      l.foldl (fun a p => dictInsert a p.1 p.2) acc = acc ++ l := by
  intro l
  induction l with
  | nil => intro acc _; simp
  | cons p t iht =>
    intro acc h
    have hkeys : cacheKeys (acc ++ p :: t) = cacheKeys acc ++ p.1 :: cacheKeys t := by
      simp [cacheKeys]
    rw [hkeys] at h
    have hnotin : p.1 ∉ cacheKeys acc := by
      rcases List.nodup_append.mp h with ⟨_, _, hdisj⟩
      intro hmem
      exact hdisj hmem (List.mem_cons_self _ _)
    rw [List.foldl_cons, dictInsert_eq_append hnotin]
    have hassoc : (acc ++ [p]) ++ t = acc ++ p :: t := by simp
    have h2 : (cacheKeys ((acc ++ [p]) ++ t)).Nodup := by
      rw [hassoc, hkeys]
      exact h
    have := iht (acc ++ [p]) h2
    rw [this, hassoc]

theorem cacheKeys_nodup_cacheAddItems (items : List CacheItem) :
    ∀ c : Cache, (cacheKeys c).Nodup → (cacheKeys (cacheAddItems c items)).Nodup := by
  induction items with
  | nil => intro c h; exact h
  | cons it t iht =>
    intro c h
    rw [cacheAddItems, List.foldl_cons]
    apply iht
    split
    · split
      · exact cacheKeys_nodup_dictInsert h
      · exact h
    · exact h

theorem cacheAddItems_vals_ne_zero (items : List CacheItem) :
    ∀ c : Cache, (∀ p ∈ c, p.2 ≠ 0) → ∀ p ∈ cacheAddItems c items, p.2 ≠ 0 := by
  induction items with
  | nil => intro c h; exact h
  | cons it t iht =>
    intro c h
    rw [cacheAddItems, List.foldl_cons]
    apply iht
    split
    · rename_i id heq
      split
      · rename_i hz
        intro p hp
        rcases mem_dictInsert hp with h1 | h1
        · rw [h1]; exact hz
        · exact h p h1
      · exact h
    · exact h

theorem buildLibsFold_keys_nodup (libs : List (Option (List CacheItem))) :
    ∀ c : Cache, (cacheKeys c).Nodup → (cacheKeys (buildLibsFold libs c)).Nodup := by
  induction libs with
  | nil => intro c h; exact h
  | cons lo t iht =>
    intro c h
    rw [buildLibsFold, List.foldl_cons]
    have : ∀ c2 : Cache, (cacheKeys c2).Nodup → (cacheKeys (buildLibsFold t c2)).Nodup := iht
    cases lo with
    | none => exact this c h
    | some items => exact this _ (cacheKeys_nodup_cacheAddItems items c h)

theorem buildLibsFold_vals_ne_zero (libs : List (Option (List CacheItem))) :
    ∀ c : Cache, (∀ p ∈ c, p.2 ≠ 0) → ∀ p ∈ buildLibsFold libs c, p.2 ≠ 0 := by
  induction libs with
  | nil => intro c h; exact h
  | cons lo t iht =>
    intro c h
    rw [buildLibsFold, List.foldl_cons]
    have : ∀ c2 : Cache, (∀ p ∈ c2, p.2 ≠ 0) → ∀ p ∈ buildLibsFold t c2, p.2 ≠ 0 := iht
    cases lo with
    | none => exact this c h
    | some items => exact this _ (cacheAddItems_vals_ne_zero items c h)

theorem build_tmdb_cache_keys_nodup (libs : List (Option (List CacheItem)))
    (colls : Option (List CacheItem)) :
    (cacheKeys (build_tmdb_cache libs colls).1).Nodup := by
  have h1 := buildLibsFold_keys_nodup libs [] (by simp [cacheKeys])
  show (cacheKeys (buildCacheMap libs colls)).Nodup
  cases colls with
  | none => exact h1
  | some items => exact cacheKeys_nodup_cacheAddItems items _ h1

theorem build_tmdb_cache_vals_ne_zero (libs : List (Option (List CacheItem)))
    (colls : Option (List CacheItem)) :
    ∀ p ∈ (build_tmdb_cache libs colls).1, p.2 ≠ 0 := by
  have h1 := buildLibsFold_vals_ne_zero libs [] (by simp)
  show ∀ p ∈ buildCacheMap libs colls, p.2 ≠ 0
  cases colls with
  | none => exact h1
  | some items => exact cacheAddItems_vals_ne_zero items _ h1

theorem load_rows_of_map (c : Cache) : ∀ acc : Cache, (∀ p ∈ c, p.1 ≠ "") →
    (c.map (fun p => (p.1, natToStr p.2))).foldl
      (fun acc row =>
        if row.1 ≠ "" ∧ strIsDigit row.2 then dictInsert acc row.1 (digitsVal row.2.data)
        else acc) acc
    = c.foldl (fun a p => dictInsert a p.1 p.2) acc := by
  induction c with
  | nil => intro acc _; rfl
  | cons p t iht =>
    intro acc h
    rw [List.map_cons, List.foldl_cons, List.foldl_cons]
    have hp : p.1 ≠ "" := h p (List.mem_cons_self p t)
    dsimp only
    rw [if_pos ⟨hp, strIsDigit_natToStr p.2⟩, digitsVal_natToStr]
    exact iht _ (fun q hq => h q (List.mem_cons_of_mem p hq))

/-- C4 amended (the identifier cache round-trip holds whenever every cached
title is nonempty): persisting the built mapping and loading it back yields
exactly the built mapping. -/
theorem tmdb_cache_roundtrip (libs : List (Option (List CacheItem)))
    (colls : Option (List CacheItem))
    (h : ∀ p ∈ (build_tmdb_cache libs colls).1, p.1 ≠ "") :
    load_tmdb_cache (some (build_tmdb_cache libs colls).2)
      = (build_tmdb_cache libs colls).1 := by
  have hmain := load_rows_of_map (build_tmdb_cache libs colls).1 [] h
  show ((build_tmdb_cache libs colls).1.map (fun p => (p.1, natToStr p.2))).foldl
      (fun acc row =>
        if row.1 ≠ "" ∧ strIsDigit row.2 then dictInsert acc row.1 (digitsVal row.2.data)
        else acc) [] = (build_tmdb_cache libs colls).1
  rw [hmain]
  have hnd : (cacheKeys ([] ++ (build_tmdb_cache libs colls).1)).Nodup := by
    simpa using build_tmdb_cache_keys_nodup libs colls
  simpa using foldl_dictInsert_of_nodup (build_tmdb_cache libs colls).1 [] hnd

/-- C4 witness: a concrete two-library build whose persisted form reloads to
exactly the built mapping. -/
theorem tmdb_cache_roundtrip_witness :
    load_tmdb_cache (some (build_tmdb_cache
        [some [⟨"Alpha", some "com.plexapp.agents.themoviedb://603?lang=en"⟩],
         some [⟨"Beta", none⟩]] none).2)
      = (build_tmdb_cache
        [some [⟨"Alpha", some "com.plexapp.agents.themoviedb://603?lang=en"⟩],
         some [⟨"Beta", none⟩]] none).1 :=
  tmdb_cache_roundtrip _ _ (by decide)

/-- C4 counterexample: an item with an empty title and a valid provider
linkage is cached by the build pass but dropped by `load_tmdb_cache`
(`if row["title"]` rejects the empty string), so load after build differs
from the built mapping. -/
theorem tmdb_cache_roundtrip_cex :
    load_tmdb_cache (some (build_tmdb_cache [some [⟨"", some "themoviedb://5"⟩]] none).2)
      ≠ (build_tmdb_cache [some [⟨"", some "themoviedb://5"⟩]] none).1 := by
  decide

/-- C9: filename sanitization is idempotent, hence the backup path of an
already sanitized title equals the path of the raw title. -/
theorem safe_filename_idem :
    (∀ s : String, safe_filename (safe_filename s) = safe_filename s) ∧
    (∀ (lib t : String) (slot : Slot),
      get_artwork_path lib (safe_filename t) slot = get_artwork_path lib t slot) := by
  have h1 : ∀ s : String, safe_filename (safe_filename s) = safe_filename s := by
    intro s
    simp [safe_filename, List.filter_filter]
  refine ⟨h1, ?_⟩
  intro lib t slot
  simp only [get_artwork_path, h1 t]

/-! ### Lemmas on `fix_art` events and results -/

theorem fsGet_fsSet_self (fs : FS) (p : String) (b : Bytes) :
    fsGet (fsSet fs p b) p = some b := by
  induction fs with
  | nil => simp [fsSet, fsGet]
  | cons q t iht =>
    rw [fsSet]
    split
    · simp [fsGet]
    · rename_i hne
      rw [fsGet, if_neg hne]
      exact iht

theorem uploadsOf_append (a b : List Event) :
    uploadsOf (a ++ b) = uploadsOf a ++ uploadsOf b := by
  simp [uploadsOf]

theorem resolverCalls_append (a b : List Event) :
    resolverCalls (a ++ b) = resolverCalls a ++ resolverCalls b := by
  simp [resolverCalls]

theorem uploadsOf_brokenEvents (cfg : Config) (env : Env) (item : PlexItem) (slot : Slot) :
    uploadsOf (brokenEvents cfg env item slot) = [] := by
  rw [brokenEvents]
  split
  · rfl
  · split <;> rfl

theorem resolverCalls_brokenEvents (cfg : Config) (env : Env) (item : PlexItem) (slot : Slot) :
    resolverCalls (brokenEvents cfg env item slot) = [] := by
  rw [brokenEvents]
  split
  · rfl
  · split <;> rfl

theorem uploadsOf_backup_from_plex (env : Env) (fs : FS) (item : PlexItem) (slot : Slot)
    (p : String) : uploadsOf (backup_from_plex env fs item slot p).2.2 = [] := by
  rw [backup_from_plex]
  split
  · rfl
  · split
    · rfl
    · split <;> rfl

theorem resolverCalls_backup_from_plex (env : Env) (fs : FS) (item : PlexItem) (slot : Slot)
    (p : String) : resolverCalls (backup_from_plex env fs item slot p).2.2 = [] := by
  rw [backup_from_plex]
  split
  · rfl
  · split
    · rfl
    · split <;> rfl

theorem uploadsOf_step1 (env : Env) (fs : FS) (item : PlexItem) (slot : Slot) (p : String) :
    uploadsOf (step1_backup env fs item slot p).2 = [] := by
  rw [step1_backup]
  split
  · exact uploadsOf_backup_from_plex env fs item slot p
  · rfl

theorem resolverCalls_step1 (env : Env) (fs : FS) (item : PlexItem) (slot : Slot) (p : String) :
    resolverCalls (step1_backup env fs item slot p).2 = [] := by
  rw [step1_backup]
  split
  · exact resolverCalls_backup_from_plex env fs item slot p
  · rfl

theorem uploadsOf_download (env : Env) (d : TmdbData) (slot : Slot) (p : String) (fs : FS) :
    uploadsOf (download_tmdb_art env d slot p fs).2.2 = [] := by
  rw [download_tmdb_art]
  split
  · rfl
  · split
    · rfl
    · split <;> rfl

theorem resolverCalls_download (env : Env) (d : TmdbData) (slot : Slot) (p : String) (fs : FS) :
    resolverCalls (download_tmdb_art env d slot p fs).2.2 = [] := by
  rw [download_tmdb_art]
  split
  · rfl
  · split
    · rfl
    · split <;> rfl

theorem uploadsOf_resolveTmdb (env : Env) (cache : Cache) (title : String) :
    uploadsOf (resolveTmdb env cache title).2 = [] := by
  rw [resolveTmdb]
  split <;> rfl

theorem resolverCalls_resolveTmdb (env : Env) (cache : Cache) (title : String) :
    resolverCalls (resolveTmdb env cache title).2 = (resolveTmdb env cache title).2 := by
  rw [resolveTmdb]
  split <;> rfl

theorem resolveTmdb_events_ne_nil (env : Env) (cache : Cache) (title : String) :
    (resolveTmdb env cache title).2 ≠ [] := by
  rw [resolveTmdb]
  split <;> simp

theorem uploadsOf_upload_to_plex (env : Env) (fs : FS) (slot : Slot) (p : String) :
    uploadsOf (upload_to_plex env fs slot p) = [fsGet fs p] := by
  rw [upload_to_plex]
  cases h : fsGet fs p with
  | none => rfl
  | some b =>
    by_cases hu : env.uploadOk = true <;> simp [hu, uploadsOf]

theorem resolverCalls_upload_to_plex (env : Env) (fs : FS) (slot : Slot) (p : String) :
    resolverCalls (upload_to_plex env fs slot p) = [] := by
  rw [upload_to_plex]
  split
  · rfl
  · split <;> rfl

theorem backup_from_plex_false_fs (env : Env) (fs : FS) (item : PlexItem) (slot : Slot)
    (p : String) (h : (backup_from_plex env fs item slot p).1 = false) :
    (backup_from_plex env fs item slot p).2.1 = fs := by
  by_cases h1 : strOptFalsy (relUrlOf item slot) = true
  · simp [backup_from_plex, h1]
  · cases h2 : env.plexFetch with
    | none => simp [backup_from_plex, h1, h2]
    | some pr =>
      obtain ⟨st, content⟩ := pr
      by_cases h3 : st = 200
      · rw [backup_from_plex] at h
        simp [h1, h2, h3] at h
      · simp [backup_from_plex, h1, h2, h3]

theorem download_false_fs (env : Env) (d : TmdbData) (slot : Slot) (p : String) (fs : FS)
    (h : (download_tmdb_art env d slot p fs).1 = false) :
    (download_tmdb_art env d slot p fs).2.1 = fs := by
  by_cases h1 : strOptFalsy (d.pathFor slot) = true
  · simp [download_tmdb_art, h1]
  · cases h2 : env.imageRes with
    | none => simp [download_tmdb_art, h1, h2]
    | some pr =>
      obtain ⟨st, content⟩ := pr
      by_cases h3 : st = 200
      · rw [download_tmdb_art] at h
        simp [h1, h2, h3] at h
      · simp [download_tmdb_art, h1, h2, h3]

theorem uploadsOf_nil : uploadsOf [] = [] := rfl

theorem resolverCalls_nil : resolverCalls [] = [] := rfl

/-- C5: with force-refresh disabled, a present artwork URL whose probe
returns status 200 within the bounded timeout yields outcome Healthy and no
upload call. -/
theorem fix_art_healthy_no_upload (cfg : Config) (env : Env) (fs : FS) (item : PlexItem)
    (lib : String) (slot : Slot) (cache : Cache) (u : String)
    (hforce : cfg.FORCE_UPLOAD_ALL = false)
    (hurl : relUrlOf item slot = some u) (hu : u ≠ "")
    (hprobe : env.probe = some 200)
    (hmk : env.mkdirOk = true) :
    ∃ fs2 ev, fix_art cfg env fs item lib slot cache = .ok (.Healthy, fs2, ev)
      ∧ uploadsOf ev = [] := by
  have hb : brokenOf cfg env item slot = false := by
    simp [brokenOf, hforce, strOptFalsy, hurl, hu, artwork_url_invalid, hprobe]
  refine ⟨(step1_backup env fs item slot (get_artwork_path lib item.title slot)).1,
    brokenEvents cfg env item slot ++
      (step1_backup env fs item slot (get_artwork_path lib item.title slot)).2, ?_, ?_⟩
  · simp [fix_art, hmk, hb]
  · rw [uploadsOf_append, uploadsOf_brokenEvents, uploadsOf_step1]
    rfl

/-- C5 witness: a concrete healthy item is left alone. -/
theorem fix_art_healthy_no_upload_witness :
    ∃ fs2 ev, fix_art ⟨true, false, false⟩ ⟨some 200, true, some (200, [1]), none, none, none, true⟩
        [] ⟨"Alpha", some "/thumb/1", none⟩ "Movies" Slot.poster []
      = .ok (.Healthy, fs2, ev) ∧ uploadsOf ev = [] :=
  fix_art_healthy_no_upload _ _ _ _ _ _ _ "/thumb/1" (by decide) (by decide) (by decide)
    (by decide) (by decide)

/-- C6: with force-refresh disabled, a missing or unreachable URL together
with an existing backup record yields outcome RestoredFromBackup, no
External Resolver call, and (when uploads are enabled and simulate-only is
off) exactly one upload whose bytes are the bytes on disk. -/
theorem fix_art_restores_backup (cfg : Config) (env : Env) (fs : FS) (item : PlexItem)
    (lib : String) (slot : Slot) (cache : Cache) (b : Bytes)
    (hforce : cfg.FORCE_UPLOAD_ALL = false)
    (hmiss : strOptFalsy (relUrlOf item slot) = true ∨ artwork_url_invalid env.probe = true)
    (hb : fsGet fs (get_artwork_path lib item.title slot) = some b)
    (hmk : env.mkdirOk = true) :
    ∃ ev, fix_art cfg env fs item lib slot cache = .ok (.RestoredFromBackup, fs, ev)
      ∧ resolverCalls ev = []
      ∧ (cfg.ENABLE_UPLOAD = true → cfg.DRY_RUN = false → uploadsOf ev = [some b]) := by
  have hbroken : brokenOf cfg env item slot = true := by
    rcases hmiss with h | h <;> simp [brokenOf, h]
  have hs1 : step1_backup env fs item slot (get_artwork_path lib item.title slot) = (fs, []) := by
    rw [step1_backup, hb]
    rfl
  refine ⟨brokenEvents cfg env item slot ++ [] ++
      (if cfg.ENABLE_UPLOAD && !cfg.DRY_RUN then
        upload_to_plex env fs slot (get_artwork_path lib item.title slot) else []), ?_, ?_, ?_⟩
  · simp [fix_art, hmk, hs1, hbroken, hb, hforce]
  · by_cases hcond : (cfg.ENABLE_UPLOAD && !cfg.DRY_RUN) = true
    · simp [resolverCalls_append, resolverCalls_brokenEvents, resolverCalls_nil, hcond,
        resolverCalls_upload_to_plex]
    · simp [resolverCalls_append, resolverCalls_brokenEvents, resolverCalls_nil, hcond,
        resolverCalls_nil]
  · intro hen hdry
    have hcond : (cfg.ENABLE_UPLOAD && !cfg.DRY_RUN) = true := by
      rw [hen, hdry]
      rfl
    simp [uploadsOf_append, uploadsOf_brokenEvents, uploadsOf_nil, hcond,
      uploadsOf_upload_to_plex, hb]

/-- C6 witness: a concrete item with an absent URL and an existing backup is
restored by uploading exactly the stored bytes. -/
theorem fix_art_restores_backup_witness :
    ∃ ev, fix_art ⟨true, false, false⟩ ⟨none, true, none, none, none, none, true⟩
        [(get_artwork_path "Movies" "Beta" Slot.poster, [3, 1, 4])]
        ⟨"Beta", none, none⟩ "Movies" Slot.poster []
      = .ok (.RestoredFromBackup,
          [(get_artwork_path "Movies" "Beta" Slot.poster, [3, 1, 4])], ev)
      ∧ resolverCalls ev = []
      ∧ (true = true → false = false → uploadsOf ev = [some [3, 1, 4]]) :=
  fix_art_restores_backup ⟨true, false, false⟩ _ _ _ _ _ _ [3, 1, 4] (by decide)
    (Or.inl (by decide)) (by decide) (by decide)

/-- C1 counterexample: with force-refresh-all enabled and an existing backup
(bytes `[7]`), the engine does not restore from the backup: it calls the
External Resolver and uploads the freshly downloaded bytes `[9]`, not the
pre-existing backup bytes. -/
theorem fix_art_force_prefers_provider_cex :
    fsGet [(get_artwork_path "Movies" "Gamma" Slot.poster, [7])]
        (get_artwork_path "Movies" "Gamma" Slot.poster) = some [7]
    ∧ outcomeOf (fix_art ⟨true, true, false⟩
        ⟨some 200, true, some (200, [1]), some ⟨"Gamma", some "/p.jpg", none⟩, none,
          some (200, [9]), true⟩
        [(get_artwork_path "Movies" "Gamma" Slot.poster, [7])]
        ⟨"Gamma", some "/g", none⟩ "Movies" Slot.poster [("Gamma", 3)])
      = some .RedownloadedFromProvider
    ∧ ¬ (resolverCalls (eventsOf (fix_art ⟨true, true, false⟩
        ⟨some 200, true, some (200, [1]), some ⟨"Gamma", some "/p.jpg", none⟩, none,
          some (200, [9]), true⟩
        [(get_artwork_path "Movies" "Gamma" Slot.poster, [7])]
        ⟨"Gamma", some "/g", none⟩ "Movies" Slot.poster [("Gamma", 3)])) = []
      ∧ uploadsOf (eventsOf (fix_art ⟨true, true, false⟩
        ⟨some 200, true, some (200, [1]), some ⟨"Gamma", some "/p.jpg", none⟩, none,
          some (200, [9]), true⟩
        [(get_artwork_path "Movies" "Gamma" Slot.poster, [7])]
        ⟨"Gamma", some "/g", none⟩ "Movies" Slot.poster [("Gamma", 3)])) = [some [7]]) := by
  refine ⟨by decide, by decide, ?_⟩
  intro h
  exact absurd h.1 (by decide)

/-- C1 amended: with force-refresh-all enabled, the engine skips the backup
restore even when a backup record exists, calls the External Resolver, and
on a successful provider download makes exactly one upload whose bytes are
the freshly downloaded bytes (overwriting the backup record). -/
theorem fix_art_force_redownload (cfg : Config) (env : Env) (fs : FS) (item : PlexItem)
    (lib : String) (slot : Slot) (cache : Cache) (b0 : Bytes) (d : TmdbData) (ap : String)
    (b1 : Bytes)
    (hforce : cfg.FORCE_UPLOAD_ALL = true)
    (hen : cfg.ENABLE_UPLOAD = true) (hdry : cfg.DRY_RUN = false)
    (hmk : env.mkdirOk = true)
    (hb : fsGet fs (get_artwork_path lib item.title slot) = some b0)
    (hres : (resolveTmdb env cache item.title).1 = some d)
    (hap : d.pathFor slot = some ap) (hapne : ap ≠ "")
    (himg : env.imageRes = some (200, b1)) :
    ∃ ev, fix_art cfg env fs item lib slot cache
        = .ok (.RedownloadedFromProvider,
            fsSet fs (get_artwork_path lib item.title slot) b1, ev)
      ∧ uploadsOf ev = [some b1]
      ∧ resolverCalls ev ≠ [] := by
  have hbroken : brokenOf cfg env item slot = true := by
    simp [brokenOf, hforce]
  have hs1 : step1_backup env fs item slot (get_artwork_path lib item.title slot) = (fs, []) := by
    rw [step1_backup, hb]
    rfl
  have hdl : download_tmdb_art env d slot (get_artwork_path lib item.title slot) fs
      = (true, fsSet fs (get_artwork_path lib item.title slot) b1,
          [Event.imageFetch ("https://image.tmdb.org/t/p/original" ++ ap)]) := by
    simp [download_tmdb_art, hap, strOptFalsy, hapne, himg]
  have hcond : (cfg.ENABLE_UPLOAD && !cfg.DRY_RUN) = true := by
    rw [hen, hdry]
    rfl
  refine ⟨(resolveTmdb env cache item.title).2 ++
      [Event.imageFetch ("https://image.tmdb.org/t/p/original" ++ ap)] ++
      upload_to_plex env (fsSet fs (get_artwork_path lib item.title slot) b1) slot
        (get_artwork_path lib item.title slot), ?_, ?_, ?_⟩
  · simp [fix_art, hmk, hbroken, hs1, hres, hdl, hforce, hcond, brokenEvents]
  · rw [uploadsOf_append, uploadsOf_append, uploadsOf_resolveTmdb,
      uploadsOf_upload_to_plex, fsGet_fsSet_self]
    rfl
  · rw [resolverCalls_append, resolverCalls_append, resolverCalls_resolveTmdb,
      resolverCalls_upload_to_plex]
    have h1 := resolveTmdb_events_ne_nil env cache item.title
    simp [h1]

/-- C1 amended witness: the concrete Gamma scenario, run through the amended
theorem. -/
theorem fix_art_force_redownload_witness :
    ∃ ev, fix_art ⟨true, true, false⟩
        ⟨some 200, true, some (200, [1]), some ⟨"Gamma", some "/p.jpg", none⟩, none,
          some (200, [9]), true⟩
        [(get_artwork_path "Movies" "Gamma" Slot.poster, [7])]
        ⟨"Gamma", some "/g", none⟩ "Movies" Slot.poster [("Gamma", 3)]
        = .ok (.RedownloadedFromProvider,
            fsSet [(get_artwork_path "Movies" "Gamma" Slot.poster, [7])]
              (get_artwork_path "Movies" "Gamma" Slot.poster) [9], ev)
      ∧ uploadsOf ev = [some [9]]
      ∧ resolverCalls ev ≠ [] :=
  fix_art_force_redownload _ _ _ _ _ _ _ [7] ⟨"Gamma", some "/p.jpg", none⟩ "/p.jpg" [9]
    (by decide) (by decide) (by decide) (by decide) (by decide) (by decide) (by decide)
    (by decide) (by decide)

/-- C7 counterexample: with force-refresh enabled, no initial backup record
and an empty provider search, the outcome is MissingNotFound and yet the
opportunistic backup of step 1 has created a Backup Store record, so the
store is not left unchanged. -/
theorem fix_art_missing_creates_backup_cex :
    outcomeOf (fix_art ⟨true, true, false⟩
        ⟨some 200, true, some (200, [4]), none, some [], none, true⟩
        [] ⟨"Delta", some "/d", none⟩ "Movies" Slot.poster [])
      = some .MissingNotFound
    ∧ uploadsOf (eventsOf (fix_art ⟨true, true, false⟩
        ⟨some 200, true, some (200, [4]), none, some [], none, true⟩
        [] ⟨"Delta", some "/d", none⟩ "Movies" Slot.poster [])) = []
    ∧ fsOf (fix_art ⟨true, true, false⟩
        ⟨some 200, true, some (200, [4]), none, some [], none, true⟩
        [] ⟨"Delta", some "/d", none⟩ "Movies" Slot.poster []) ≠ some [] := by
  refine ⟨by decide, by decide, by decide⟩

/-- C7 amended: when the artwork is broken, no backup record exists, the
opportunistic live backup of step 1 fails, and the provider path yields no
bytes, the outcome is MissingNotFound, no upload is attempted, and the
Backup Store is left exactly unchanged. -/
theorem fix_art_missing_not_found_frame (cfg : Config) (env : Env) (fs : FS)
    (item : PlexItem) (lib : String) (slot : Slot) (cache : Cache)
    (hmk : env.mkdirOk = true)
    (hbroken : brokenOf cfg env item slot = true)
    (hnb : fsGet fs (get_artwork_path lib item.title slot) = none)
    (hbk : (backup_from_plex env fs item slot (get_artwork_path lib item.title slot)).1 = false)
    (hres : ∀ d, (resolveTmdb env cache item.title).1 = some d →
      (download_tmdb_art env d slot (get_artwork_path lib item.title slot) fs).1 = false) :
    ∃ ev, fix_art cfg env fs item lib slot cache = .ok (.MissingNotFound, fs, ev)
      ∧ uploadsOf ev = [] := by
  have hs1 : step1_backup env fs item slot (get_artwork_path lib item.title slot)
      = (fs, (backup_from_plex env fs item slot (get_artwork_path lib item.title slot)).2.2) := by
    rw [step1_backup, hnb]
    show (backup_from_plex env fs item slot (get_artwork_path lib item.title slot)).2 = _
    rw [Prod.ext_iff]
    exact ⟨backup_from_plex_false_fs env fs item slot _ hbk, rfl⟩
  cases hcase : (resolveTmdb env cache item.title).1 with
  | none =>
    refine ⟨brokenEvents cfg env item slot ++
        (backup_from_plex env fs item slot (get_artwork_path lib item.title slot)).2.2 ++
        (resolveTmdb env cache item.title).2, ?_, ?_⟩
    · simp [fix_art, hmk, hbroken, hs1, hnb, hcase]
    · rw [uploadsOf_append, uploadsOf_append, uploadsOf_brokenEvents,
        uploadsOf_backup_from_plex, uploadsOf_resolveTmdb]
      rfl
  | some d =>
    have hdl := hres d hcase
    have hdlfs := download_false_fs env d slot (get_artwork_path lib item.title slot) fs hdl
    refine ⟨brokenEvents cfg env item slot ++
        (backup_from_plex env fs item slot (get_artwork_path lib item.title slot)).2.2 ++
        (resolveTmdb env cache item.title).2 ++
        (download_tmdb_art env d slot (get_artwork_path lib item.title slot) fs).2.2, ?_, ?_⟩
    · simp [fix_art, hmk, hbroken, hs1, hnb, hcase, hdl, hdlfs]
    · rw [uploadsOf_append, uploadsOf_append, uploadsOf_append, uploadsOf_brokenEvents,
        uploadsOf_backup_from_plex, uploadsOf_resolveTmdb, uploadsOf_download]
      rfl

/-- C7 amended witness: a concrete unreachable item with no backup, a failed
live backup and an empty search ends MissingNotFound with the store
untouched. -/
theorem fix_art_missing_not_found_frame_witness :
    ∃ ev, fix_art ⟨true, false, false⟩ ⟨none, true, none, none, some [], none, true⟩
        [] ⟨"Echo", some "/e", none⟩ "Movies" Slot.poster []
      = .ok (.MissingNotFound, [], ev) ∧ uploadsOf ev = [] :=
  fix_art_missing_not_found_frame ⟨true, false, false⟩ _ [] ⟨"Echo", some "/e", none⟩
    "Movies" Slot.poster [] (by decide) (by decide) (by decide) (by decide)
    (by intro d hd; simp [resolveTmdb, cacheGet] at hd)

/-- C2 counterexample: an exception raised inside the reconciliation of item
A (a failing `ensure_folder`) is not converted to an Errored outcome at the
(item, slot) boundary: it escapes `fix_art`, and item B of the same library
is never processed. -/
theorem fix_art_exception_aborts_section_cex :
    (process_section ⟨true, false, false⟩ []
        [⟨⟨"A", some "/a", none⟩, ⟨some 200, false, none, none, none, none, true⟩,
            ⟨some 200, false, none, none, none, none, true⟩⟩,
         ⟨⟨"B", some "/b", none⟩, ⟨some 200, true, none, none, none, none, true⟩,
            ⟨some 200, true, none, none, none, none, true⟩⟩]
        "Movies" []).2.2 = some .mkdirFailed
    ∧ Event.itemVisit "B" ∉ (process_section ⟨true, false, false⟩ []
        [⟨⟨"A", some "/a", none⟩, ⟨some 200, false, none, none, none, none, true⟩,
            ⟨some 200, false, none, none, none, none, true⟩⟩,
         ⟨⟨"B", some "/b", none⟩, ⟨some 200, true, none, none, none, none, true⟩,
            ⟨some 200, true, none, none, none, none, true⟩⟩]
        "Movies" []).2.1 := by
  refine ⟨by decide, by decide⟩

/-- C2 amended: an unexpected exception during the five steps escapes the
(item, slot) call and aborts the remaining items of the same library; it is
caught only at the library boundary of `main`, so every configured library
is still visited regardless of failures inside earlier ones. -/
theorem fix_art_exception_boundary :
    (∀ (cfg : Config) (fs : FS) (c : ItemCtx) (rest : List ItemCtx) (lib : String)
        (cache : Cache) (e : Exn),
      fix_art cfg c.envP fs c.item lib .poster cache = .error e →
        process_section cfg fs (c :: rest) lib cache
          = (fs, [Event.itemVisit c.item.title], some e))
    ∧ (∀ (cfg : Config) (fs : FS) (libs : List LibSpec) (cache : Cache) (l : LibSpec),
        l ∈ libs → Event.libStart l.name ∈ (processLibraries cfg fs libs cache).2) := by
  constructor
  · intro cfg fs c rest lib cache e h
    rw [process_section, h]
  · intro cfg fs libs cache
    induction libs generalizing fs with
    | nil =>
      intro l h
      simp at h
    | cons lo rest ih =>
      intro l hmem
      rw [processLibraries]
      rcases List.mem_cons.mp hmem with heq | hmem2
      · subst heq
        apply List.mem_append_left
        cases h2 : l.sectionItems with
        | none => simp
        | some ctxs =>
          dsimp only
          rcases h3 : process_section cfg fs ctxs l.name cache with ⟨fs2, ev, exn⟩
          cases exn <;> simp
      · exact List.mem_append_right _ (ih _ l hmem2)

/-- C2 amended witness: the abort shape at a concrete failing item, and the
visit of a concrete second library. -/
theorem fix_art_exception_boundary_witness :
    process_section ⟨true, false, false⟩ []
        [⟨⟨"A", some "/a", none⟩, ⟨some 200, false, none, none, none, none, true⟩,
            ⟨some 200, false, none, none, none, none, true⟩⟩]
        "Movies" []
      = ([], [Event.itemVisit "A"], some .mkdirFailed)
    ∧ Event.libStart "TV Shows" ∈ (processLibraries ⟨true, false, false⟩ []
        [⟨"TV Shows", some []⟩] []).2 :=
  ⟨fix_art_exception_boundary.1 ⟨true, false, false⟩ []
      ⟨⟨"A", some "/a", none⟩, ⟨some 200, false, none, none, none, none, true⟩,
        ⟨some 200, false, none, none, none, none, true⟩⟩ [] "Movies" [] .mkdirFailed
      (by rfl),
   fix_art_exception_boundary.2 ⟨true, false, false⟩ [] [⟨"TV Shows", some []⟩] []
      ⟨"TV Shows", some []⟩ (by decide)⟩

theorem buildPass_not_mem_brokenEvents (cfg : Config) (env : Env) (item : PlexItem)
    (slot : Slot) : Event.buildPass ∉ brokenEvents cfg env item slot := by
  rw [brokenEvents]
  split
  · simp
  · split <;> simp

theorem buildPass_not_mem_backup (env : Env) (fs : FS) (item : PlexItem) (slot : Slot)
    (p : String) : Event.buildPass ∉ (backup_from_plex env fs item slot p).2.2 := by
  rw [backup_from_plex]
  split
  · simp
  · split
    · simp
    · split <;> simp

theorem buildPass_not_mem_step1 (env : Env) (fs : FS) (item : PlexItem) (slot : Slot)
    (p : String) : Event.buildPass ∉ (step1_backup env fs item slot p).2 := by
  rw [step1_backup]
  split
  · exact buildPass_not_mem_backup env fs item slot p
  · simp

theorem buildPass_not_mem_resolve (env : Env) (cache : Cache) (title : String) :
    Event.buildPass ∉ (resolveTmdb env cache title).2 := by
  rw [resolveTmdb]
  split <;> simp

theorem buildPass_not_mem_download (env : Env) (d : TmdbData) (slot : Slot) (p : String)
    (fs : FS) : Event.buildPass ∉ (download_tmdb_art env d slot p fs).2.2 := by
  rw [download_tmdb_art]
  split
  · simp
  · split
    · simp
    · split <;> simp

theorem buildPass_not_mem_upload (env : Env) (fs : FS) (slot : Slot) (p : String) :
    Event.buildPass ∉ upload_to_plex env fs slot p := by
  rw [upload_to_plex]
  split
  · simp
  · split <;> simp

theorem buildPass_not_mem_uploadIf (c : Prop) [Decidable c] (env : Env) (fs : FS)
    (slot : Slot) (p : String) :
    Event.buildPass ∉ (if c then upload_to_plex env fs slot p else []) := by
  split
  · exact buildPass_not_mem_upload env fs slot p
  · simp

theorem buildPass_not_mem_fix_art (cfg : Config) (env : Env) (fs : FS) (item : PlexItem)
    (lib : String) (slot : Slot) (cache : Cache) :
    Event.buildPass ∉ eventsOf (fix_art cfg env fs item lib slot cache) := by
  simp only [fix_art]
  split
  · simp [eventsOf]
  · split
    · simp [eventsOf, List.mem_append, buildPass_not_mem_brokenEvents,
        buildPass_not_mem_step1]
    · split
      · simp only [eventsOf, List.mem_append, not_or]
        refine ⟨⟨buildPass_not_mem_brokenEvents _ _ _ _, buildPass_not_mem_step1 _ _ _ _ _⟩, ?_⟩
        exact buildPass_not_mem_uploadIf _ _ _ _ _
      · split
        · split
          · simp only [eventsOf, List.mem_append, not_or]
            refine ⟨⟨⟨⟨buildPass_not_mem_brokenEvents _ _ _ _,
              buildPass_not_mem_step1 _ _ _ _ _⟩, buildPass_not_mem_resolve _ _ _⟩,
              buildPass_not_mem_download _ _ _ _ _⟩, ?_⟩
            exact buildPass_not_mem_uploadIf _ _ _ _ _
          · simp [eventsOf, List.mem_append, buildPass_not_mem_brokenEvents,
              buildPass_not_mem_step1, buildPass_not_mem_resolve,
              buildPass_not_mem_download]
        · simp [eventsOf, List.mem_append, buildPass_not_mem_brokenEvents,
            buildPass_not_mem_step1, buildPass_not_mem_resolve]

theorem buildPass_not_mem_process_section (cfg : Config) (lib : String) (cache : Cache) :
    ∀ (ctxs : List ItemCtx) (fs : FS),
      Event.buildPass ∉ (process_section cfg fs ctxs lib cache).2.1 := by
  intro ctxs
  induction ctxs with
  | nil => intro fs; simp [process_section]
  | cons c rest ih =>
    intro fs
    rw [process_section]
    cases h1 : fix_art cfg c.envP fs c.item lib .poster cache with
    | error e => simp
    | ok v =>
      obtain ⟨o1, fs1, ev1⟩ := v
      have hv1 : Event.buildPass ∉ ev1 := by
        have h := buildPass_not_mem_fix_art cfg c.envP fs c.item lib .poster cache
        rw [h1] at h
        simpa [eventsOf] using h
      dsimp only
      cases h2 : fix_art cfg c.envB fs1 c.item lib .background cache with
      | error e => simp [hv1]
      | ok w =>
        obtain ⟨o2, fs2, ev2⟩ := w
        have hv2 : Event.buildPass ∉ ev2 := by
          have h := buildPass_not_mem_fix_art cfg c.envB fs1 c.item lib .background cache
          rw [h2] at h
          simpa [eventsOf] using h
        simp [hv1, hv2, ih fs2]

theorem buildPass_not_mem_processLibraries (cfg : Config) (cache : Cache) :
    ∀ (libs : List LibSpec) (fs : FS),
      Event.buildPass ∉ (processLibraries cfg fs libs cache).2 := by
  intro libs
  induction libs with
  | nil => intro fs; simp [processLibraries]
  | cons lo rest ih =>
    intro fs
    rw [processLibraries]
    cases h2 : lo.sectionItems with
    | none => simp [ih]
    | some ctxs =>
      dsimp only
      rcases h3 : process_section cfg fs ctxs lo.name cache with ⟨fs2, ev, exn⟩
      have hev : Event.buildPass ∉ ev := by
        have h := buildPass_not_mem_process_section cfg lo.name cache ctxs fs
        rw [h3] at h
        exact h
      cases exn <;> simp [ih, hev]

/-- C3 counterexample: with a durable cache copy present (and no rebuild
concept in the code at all), the run still executes the build pass and uses
its result, not the durable copy: the cache used differs from what loading
the durable copy yields. -/
theorem main_ignores_durable_cex :
    (main ⟨true, false, false⟩ ⟨some [("A", "1")], [], none, []⟩ []).1
      ≠ load_tmdb_cache (some [("A", "1")])
    ∧ Event.buildPass ∈ (main ⟨true, false, false⟩ ⟨some [("A", "1")], [], none, []⟩ []).2.2.2 := by
  refine ⟨by decide, by decide⟩

/-- C3 amended: the identifier cache is populated exactly once per run by an
unconditional build pass; the durable copy is never consulted (the run is
independent of it) and is overwritten by the rows the build writes. -/
theorem main_builds_cache_unconditionally :
    ∀ (cfg : Config) (inp : RunInput) (fs : FS),
      (main cfg inp fs).1 = (build_tmdb_cache inp.cacheLibs inp.cacheColls).1
      ∧ (main cfg inp fs).2.1 = (build_tmdb_cache inp.cacheLibs inp.cacheColls).2
      ∧ (∀ d2 : Option (List (String × String)),
          main cfg ⟨d2, inp.cacheLibs, inp.cacheColls, inp.libs⟩ fs = main cfg inp fs)
      ∧ ((main cfg inp fs).2.2.2).count Event.buildPass = 1 := by
  intro cfg inp fs
  refine ⟨rfl, rfl, fun d2 => rfl, ?_⟩
  show (Event.buildPass ::
      (processLibraries cfg fs inp.libs (build_tmdb_cache inp.cacheLibs inp.cacheColls).1).2).count
      Event.buildPass = 1
  rw [List.count_cons_self]
  rw [List.count_eq_zero.mpr
    (buildPass_not_mem_processLibraries cfg (build_tmdb_cache inp.cacheLibs inp.cacheColls).1
      inp.libs fs)]

theorem cacheGet_mem {c : Cache} {k : String} {v : Nat} (h : cacheGet c k = some v) :
    (k, v) ∈ c := by
  induction c with
  | nil => simp [cacheGet] at h
  | cons q t iht =>
    rw [cacheGet] at h
    split at h
    · rename_i heq
      obtain rfl := Option.some.inj h
      subst heq
      exact List.mem_cons_self _ _
    · exact List.mem_cons_of_mem q (iht h)

/-- C8: over a cache produced by the build pass, resolution uses direct ID
lookup with no search call whenever the cache holds the title, otherwise a
single fuzzy search taking the first result or absent, and raising call
sites on either path yield absent metadata instead of a failure. -/
theorem resolve_prefers_cached_id (env : Env) (libs : List (Option (List CacheItem)))
    (colls : Option (List CacheItem)) (title : String) :
    (∀ id, cacheGet (build_tmdb_cache libs colls).1 title = some id →
      resolveTmdb env (build_tmdb_cache libs colls).1 title
        = (env.details, [Event.detailsCall id]))
    ∧ (cacheGet (build_tmdb_cache libs colls).1 title = none →
      resolveTmdb env (build_tmdb_cache libs colls).1 title
        = (env.searchRes.bind List.head?, [Event.searchCall title]))
    ∧ (env.details = none → env.searchRes = none →
      (resolveTmdb env (build_tmdb_cache libs colls).1 title).1 = none) := by
  have hdir : ∀ id, cacheGet (build_tmdb_cache libs colls).1 title = some id →
      resolveTmdb env (build_tmdb_cache libs colls).1 title
        = (env.details, [Event.detailsCall id]) := by
    intro id hid
    have hmem := cacheGet_mem hid
    have hpos := build_tmdb_cache_vals_ne_zero libs colls (title, id) hmem
    rw [resolveTmdb, hid]
    cases id with
    | zero => exact absurd rfl hpos
    | succ n => rfl
  refine ⟨hdir, ?_, ?_⟩
  · intro hnone
    rw [resolveTmdb, hnone]
  · intro hdet hsearch
    cases hc : cacheGet (build_tmdb_cache libs colls).1 title with
    | none =>
      rw [resolveTmdb, hc, hsearch]
      rfl
    | some id =>
      rw [hdir id hc, hdet]

/-- C8 witness: a concretely built cache sends a cached title through direct
ID lookup only. -/
theorem resolve_prefers_cached_id_witness :
    resolveTmdb ⟨none, true, none, some ⟨"Hit", none, none⟩, some [], none, true⟩
        (build_tmdb_cache [some [⟨"Hit", some "themoviedb://42"⟩]] none).1 "Hit"
      = (some ⟨"Hit", none, none⟩, [Event.detailsCall 42]) :=
  (resolve_prefers_cached_id ⟨none, true, none, some ⟨"Hit", none, none⟩, some [], none, true⟩
    [some [⟨"Hit", some "themoviedb://42"⟩]] none "Hit").1 42 (by decide)

theorem brokenOf_mk (cfg : Config) (pr : Option Nat) (m : Bool) (pf : Option (Nat × Bytes))
    (de : Option TmdbData) (se : Option (List TmdbData)) (ir : Option (Nat × Bytes))
    (b : Bool) (item : PlexItem) (slot : Slot) :
    brokenOf cfg ⟨pr, m, pf, de, se, ir, b⟩ item slot
      = brokenOf cfg ⟨pr, m, pf, de, se, ir, true⟩ item slot := rfl

theorem brokenEvents_mk (cfg : Config) (pr : Option Nat) (m : Bool) (pf : Option (Nat × Bytes))
    (de : Option TmdbData) (se : Option (List TmdbData)) (ir : Option (Nat × Bytes))
    (b : Bool) (item : PlexItem) (slot : Slot) :
    brokenEvents cfg ⟨pr, m, pf, de, se, ir, b⟩ item slot
      = brokenEvents cfg ⟨pr, m, pf, de, se, ir, true⟩ item slot := rfl

theorem step1_mk (pr : Option Nat) (m : Bool) (pf : Option (Nat × Bytes))
    (de : Option TmdbData) (se : Option (List TmdbData)) (ir : Option (Nat × Bytes))
    (b : Bool) (fs : FS) (item : PlexItem) (slot : Slot) (p : String) :
    step1_backup ⟨pr, m, pf, de, se, ir, b⟩ fs item slot p
      = step1_backup ⟨pr, m, pf, de, se, ir, true⟩ fs item slot p := rfl

theorem resolveTmdb_mk (pr : Option Nat) (m : Bool) (pf : Option (Nat × Bytes))
    (de : Option TmdbData) (se : Option (List TmdbData)) (ir : Option (Nat × Bytes))
    (b : Bool) (cache : Cache) (title : String) :
    resolveTmdb ⟨pr, m, pf, de, se, ir, b⟩ cache title
      = resolveTmdb ⟨pr, m, pf, de, se, ir, true⟩ cache title := rfl

theorem download_mk (pr : Option Nat) (m : Bool) (pf : Option (Nat × Bytes))
    (de : Option TmdbData) (se : Option (List TmdbData)) (ir : Option (Nat × Bytes))
    (b : Bool) (d : TmdbData) (slot : Slot) (p : String) (fs : FS) :
    download_tmdb_art ⟨pr, m, pf, de, se, ir, b⟩ d slot p fs
      = download_tmdb_art ⟨pr, m, pf, de, se, ir, true⟩ d slot p fs := rfl

theorem upload_to_plex_filtered (env : Env) (fs : FS) (slot : Slot) (p : String) :
    (upload_to_plex env fs slot p).filter (fun e => e != Event.uploadFailLog)
      = [Event.uploadAttempt slot (fsGet fs p)] := by
  rw [upload_to_plex]
  cases h : fsGet fs p with
  | none => rfl
  | some bs =>
    dsimp only
    by_cases hu : env.uploadOk = true
    · rw [if_pos hu]
      rfl
    · rw [if_neg hu]
      rfl

theorem fix_art_set_uploadOk (cfg : Config) (env : Env) (fs : FS) (item : PlexItem)
    (lib : String) (slot : Slot) (cache : Cache) (b1 b2 : Bool) :
    outcomeOf (fix_art cfg { env with uploadOk := b1 } fs item lib slot cache)
      = outcomeOf (fix_art cfg { env with uploadOk := b2 } fs item lib slot cache)
    ∧ fsOf (fix_art cfg { env with uploadOk := b1 } fs item lib slot cache)
      = fsOf (fix_art cfg { env with uploadOk := b2 } fs item lib slot cache)
    ∧ (eventsOf (fix_art cfg { env with uploadOk := b1 } fs item lib slot cache)).filter
        (fun e => e != Event.uploadFailLog)
      = (eventsOf (fix_art cfg { env with uploadOk := b2 } fs item lib slot cache)).filter
        (fun e => e != Event.uploadFailLog) := by
  obtain ⟨pr, mkv, pf, de, se, ir, up⟩ := env
  cases mkv with
  | false => exact ⟨rfl, rfl, rfl⟩
  | true =>
    refine ⟨?_, ?_, ?_⟩ <;>
    · simp only [fix_art, brokenOf_mk, brokenEvents_mk, step1_mk, resolveTmdb_mk, download_mk]
      by_cases hbr : brokenOf cfg ⟨pr, true, pf, de, se, ir, true⟩ item slot = false
      · simp [hbr, outcomeOf, fsOf, eventsOf]
      · by_cases hso : (fsGet (step1_backup ⟨pr, true, pf, de, se, ir, true⟩ fs item slot
            (get_artwork_path lib item.title slot)).1
            (get_artwork_path lib item.title slot)).isSome = true
        · by_cases hfo : cfg.FORCE_UPLOAD_ALL = false
          · by_cases hen : cfg.ENABLE_UPLOAD = true
            · by_cases hdr : cfg.DRY_RUN = false
              · simp [hbr, hso, hfo, hen, hdr, outcomeOf, fsOf, eventsOf,
                  List.filter_append, upload_to_plex_filtered]
              · simp [hbr, hso, hfo, hen, hdr, outcomeOf, fsOf, eventsOf]
            · simp [hbr, hso, hfo, hen, outcomeOf, fsOf, eventsOf]
          · cases hres : (resolveTmdb ⟨pr, true, pf, de, se, ir, true⟩ cache item.title).1 with
            | none => simp [hbr, hso, hfo, hres, outcomeOf, fsOf, eventsOf]
            | some d =>
              by_cases hdl : (download_tmdb_art ⟨pr, true, pf, de, se, ir, true⟩ d slot
                  (get_artwork_path lib item.title slot)
                  (step1_backup ⟨pr, true, pf, de, se, ir, true⟩ fs item slot
                    (get_artwork_path lib item.title slot)).1).1 = true
              · by_cases hen : cfg.ENABLE_UPLOAD = true
                · by_cases hdr : cfg.DRY_RUN = false
                  · simp [hbr, hso, hfo, hres, hdl, hen, hdr, outcomeOf, fsOf, eventsOf,
                      List.filter_append, upload_to_plex_filtered]
                  · simp [hbr, hso, hfo, hres, hdl, hen, hdr, outcomeOf, fsOf, eventsOf]
                · simp [hbr, hso, hfo, hres, hdl, hen, outcomeOf, fsOf, eventsOf]
              · simp [hbr, hso, hfo, hres, hdl, outcomeOf, fsOf, eventsOf]
        · cases hres : (resolveTmdb ⟨pr, true, pf, de, se, ir, true⟩ cache item.title).1 with
          | none => simp [hbr, hso, hres, outcomeOf, fsOf, eventsOf]
          | some d =>
            by_cases hdl : (download_tmdb_art ⟨pr, true, pf, de, se, ir, true⟩ d slot
                (get_artwork_path lib item.title slot)
                (step1_backup ⟨pr, true, pf, de, se, ir, true⟩ fs item slot
                  (get_artwork_path lib item.title slot)).1).1 = true
            · by_cases hen : cfg.ENABLE_UPLOAD = true
              · by_cases hdr : cfg.DRY_RUN = false
                · simp [hbr, hso, hres, hdl, hen, hdr, outcomeOf, fsOf, eventsOf,
                    List.filter_append, upload_to_plex_filtered]
                · simp [hbr, hso, hres, hdl, hen, hdr, outcomeOf, fsOf, eventsOf]
              · simp [hbr, hso, hres, hdl, hen, outcomeOf, fsOf, eventsOf]
            · simp [hbr, hso, hres, hdl, outcomeOf, fsOf, eventsOf]

/-- C10: the upload operation never raises to its caller (it is total and
converts a raising Plex call into a logged failure event), so the outcome,
the filesystem, the error status and the non-log events of a reconciliation
are independent of whether the upload succeeds, and a failed upload does not
abort the processing of the rest of the section. -/
theorem upload_failure_invisible :
    ∀ (cfg : Config) (env : Env) (fs : FS) (item : PlexItem) (lib : String) (slot : Slot)
      (cache : Cache) (b1 b2 : Bool),
      (outcomeOf (fix_art cfg { env with uploadOk := b1 } fs item lib slot cache)
        = outcomeOf (fix_art cfg { env with uploadOk := b2 } fs item lib slot cache)
      ∧ fsOf (fix_art cfg { env with uploadOk := b1 } fs item lib slot cache)
        = fsOf (fix_art cfg { env with uploadOk := b2 } fs item lib slot cache)
      ∧ (eventsOf (fix_art cfg { env with uploadOk := b1 } fs item lib slot cache)).filter
          (fun e => e != Event.uploadFailLog)
        = (eventsOf (fix_art cfg { env with uploadOk := b2 } fs item lib slot cache)).filter
          (fun e => e != Event.uploadFailLog))
      ∧ (∀ (rest : List ItemCtx) (envB : Env),
        (process_section cfg fs
          (⟨item, { env with uploadOk := b1 }, envB⟩ :: rest) lib cache).2.2
        = (process_section cfg fs
          (⟨item, { env with uploadOk := b2 }, envB⟩ :: rest) lib cache).2.2) := by
  intro cfg env fs item lib slot cache b1 b2
  refine ⟨fix_art_set_uploadOk cfg env fs item lib slot cache b1 b2, ?_⟩
  obtain ⟨p1, p2, p3⟩ := fix_art_set_uploadOk cfg env fs item lib .poster cache b1 b2
  intro rest envB
  rw [process_section, process_section]
  dsimp only
  cases ha : fix_art cfg { env with uploadOk := b1 } fs item lib .poster cache with
  | error e1 =>
    cases hb : fix_art cfg { env with uploadOk := b2 } fs item lib .poster cache with
    | error e2 =>
      cases e1
      cases e2
      rfl
    | ok v =>
      rw [ha, hb] at p1
      obtain ⟨o2, f2, ev2⟩ := v
      simp [outcomeOf] at p1
  | ok v1 =>
    obtain ⟨o1, f1, ev1⟩ := v1
    cases hb : fix_art cfg { env with uploadOk := b2 } fs item lib .poster cache with
    | error e2 =>
      rw [ha, hb] at p1
      simp [outcomeOf] at p1
    | ok v2 =>
      obtain ⟨o2, f2, ev2⟩ := v2
      have hff : f1 = f2 := by
        rw [ha, hb] at p2
        simpa [fsOf] using p2
      subst hff
      dsimp only
      cases hc : fix_art cfg envB f1 item lib Slot.background cache with
      | error e => rfl
      | ok v =>
        obtain ⟨o3, f3, ev3⟩ := v
        rfl

end ArtHealer
